import Mathlib

/-!
Verification of the volv supplier-scorecard pipeline.

The development shallowly embeds the extraction pipeline of
`src/ttm/gethtmls4.py` and the page-classification / configuration-loading
logic of `src/ver2/getweb.py`.  Text is modelled as `List Char`; the
specific regular expressions used by the source are modelled by
specialised executable matchers (the patterns involved contain no
constructs whose greedy/lazy behaviour is ambiguous: every greedy
whitespace run is followed by a non-whitespace literal, so consuming the
maximal run is exact, and the single lazy capture `(.+?)` is modelled by
taking the shortest non-empty prefix after which the terminator matches,
which is exactly Python's leftmost-then-lazy semantics).  Python dicts are
modelled as insertion-ordered association lists with `dict.update`
semantics.  The Mersenne-Twister generator behind `random.seed` /
`random.uniform` is modelled by an arbitrary deterministic generator
(`RngModel`): the claims about the synthetic series (reproducibility under
re-seeding, forced final value, fixed length) hold for every instance.
-/

/-! ### Character and substring utilities -/

/-- Python `\s` (ASCII range, which is all that occurs in the scraped pages). -/
def isWS (c : Char) : Bool :=
  c = ' ' || c = '\t' || c = '\n' || c = '\r' || c = '\x0b' || c = '\x0c'

/-- Case-insensitive character comparison, as under `re.IGNORECASE`. -/
def ciEq (a b : Char) : Bool := a.toLower = b.toLower

/-- Case-sensitive "starts with". -/
def startsWithCS : List Char → List Char → Bool
  | [], _ => true
  | _ :: _, [] => false
  | p :: ps, c :: cs => p = c && startsWithCS ps cs

/-- Python's `pat in s` substring test (case-sensitive). -/
def containsSub (pat : List Char) : List Char → Bool
  | [] => startsWithCS pat []
  | c :: rest => startsWithCS pat (c :: rest) || containsSub pat rest

/-- Match a case-insensitive literal, returning the remaining text. -/
def litCI : List Char → List Char → Option (List Char)
  | [], s => some s
  | _ :: _, [] => none
  | p :: ps, c :: cs => if ciEq p c then litCI ps cs else none

/-- Match a case-sensitive literal, returning the remaining text. -/
def litCS : List Char → List Char → Option (List Char)
  | [], s => some s
  | _ :: _, [] => none
  | p :: ps, c :: cs => if p = c then litCS ps cs else none

/-- Case-insensitive "starts with". -/
def startsWithCI (p s : List Char) : Bool := (litCI p s).isSome

/-- Python `str.lower` (ASCII). -/
def strLower (s : List Char) : List Char := s.map Char.toLower

/-- Value of a digit string (`int(...)` on a digit-only string). -/
def digitsToNat (ds : List Char) : ℕ :=
  ds.foldl (fun n c => 10 * n + (c.toNat - '0'.toNat)) 0

/-! ### The regex primitives used by the extractor -/

/-- Match `(\d+)%` anchored at the head: a maximal non-empty digit run
followed by `'%'`; returns the digits.  (Python's greedy `\d+` cannot
backtrack successfully here, because a shorter run would leave a digit
where `%` is required.) -/
def digitRunPercent (s : List Char) : Option (List Char) :=
  let ds := s.takeWhile Char.isDigit
  let r := s.dropWhile Char.isDigit
  if ds.isEmpty then none
  else match r with
    | '%' :: _ => some ds
    | _ => none

/-- `re.search(r'(\d+)%', s)`: leftmost match of the percent pattern. -/
def firstPercent : List Char → Option (List Char)
  | [] => none
  | c :: rest =>
    match digitRunPercent (c :: rest) with
    | some ds => some ds
    | none => firstPercent rest

/-- Match `(\d{4}-\d{2}-\d{2})` anchored at the head. -/
def dateAt (s : List Char) : Option (List Char) :=
  match s with
  | y1 :: y2 :: y3 :: y4 :: h1 :: m1 :: m2 :: h2 :: d1 :: d2 :: _ =>
    if y1.isDigit && y2.isDigit && y3.isDigit && y4.isDigit && h1 = '-'
        && m1.isDigit && m2.isDigit && h2 = '-' && d1.isDigit && d2.isDigit then
      some [y1, y2, y3, y4, '-', m1, m2, '-', d1, d2]
    else none
  | _ => none

/-- `re.search(r'(\d{4}-\d{2}-\d{2})', s)`: leftmost ISO-date match. -/
def firstDate : List Char → Option (List Char)
  | [] => none
  | c :: rest =>
    match dateAt (c :: rest) with
    | some ds => some ds
    | none => firstDate rest

/-- Match `Expire:\s*(\d{4}-\d{2}-\d{2})` anchored at the head. -/
def expireAt (s : List Char) : Option (List Char) :=
  match litCS "Expire:".data s with
  | some r => dateAt (r.dropWhile isWS)
  | none => none

/-- `re.search(r'Expire:\s*(\d{4}-\d{2}-\d{2})', s)`. -/
def firstExpire : List Char → Option (List Char)
  | [] => none
  | c :: rest =>
    match expireAt (c :: rest) with
    | some ds => some ds
    | none => firstExpire rest

/-- Match `Evaluated:\s*(\d{4}-\d{2}-\d{2})` anchored at the head. -/
def evaluatedAt (s : List Char) : Option (List Char) :=
  match litCS "Evaluated:".data s with
  | some r => dateAt (r.dropWhile isWS)
  | none => none

/-- `re.search(r'Evaluated:\s*(\d{4}-\d{2}-\d{2})', s)`. -/
def firstEvaluated : List Char → Option (List Char)
  | [] => none
  | c :: rest =>
    match evaluatedAt (c :: rest) with
    | some ds => some ds
    | none => firstEvaluated rest

/-! ### The three audit-panel header patterns and the lazy-capture search

These model `re.search` for the three IGNORECASE patterns of
`parse_quality_audits`:
  `SMA\s*/\s*Criticality\s+1\s+Index(.+?)(?:Software Index|EE Index|$)`
  `Software\s+Index(.+?)(?:EE Index|$)`
  `EE\s+Index(.+?)$`
-/

/-- `\s*` (greedy; always followed by a non-whitespace literal, so maximal). -/
def wsStar (s : List Char) : List Char := s.dropWhile isWS

/-- `\s+` (greedy, at least one). -/
def wsPlus : List Char → Option (List Char)
  | [] => none
  | c :: cs => if isWS c then some (cs.dropWhile isWS) else none

/-- Header `SMA\s*/\s*Criticality\s+1\s+Index` (IGNORECASE). -/
def smaHdr (s : List Char) : Option (List Char) := do
  let s ← litCI "SMA".data s
  let s ← litCI "/".data (wsStar s)
  let s ← litCI "Criticality".data (wsStar s)
  let s ← wsPlus s
  let s ← litCI "1".data s
  let s ← wsPlus s
  litCI "Index".data s

/-- Header `Software\s+Index` (IGNORECASE). -/
def swHdr (s : List Char) : Option (List Char) := do
  let s ← litCI "Software".data s
  let s ← wsPlus s
  litCI "Index".data s

/-- Header `EE\s+Index` (IGNORECASE). -/
def eeHdr (s : List Char) : Option (List Char) := do
  let s ← litCI "EE".data s
  let s ← wsPlus s
  litCI "Index".data s

/-- `$` without `re.MULTILINE`: end of text, or just before a final newline. -/
def atEndDollar (s : List Char) : Bool := s.isEmpty || s = ['\n']

/-- Terminator of the SMA capture: `(?:Software Index|EE Index|$)`. -/
def smaTerm (s : List Char) : Bool :=
  startsWithCI "Software Index".data s || startsWithCI "EE Index".data s || atEndDollar s

/-- Terminator of the Software capture: `(?:EE Index|$)`. -/
def swTerm (s : List Char) : Bool :=
  startsWithCI "EE Index".data s || atEndDollar s

/-- Terminator of the EE capture: `$`. -/
def eeTerm (s : List Char) : Bool := atEndDollar s

/-- Lazy capture `(.+?)` followed by a terminator: the shortest non-empty
prefix of newline-free characters after which `term` holds. -/
def tryCapture (term : List Char → Bool) : List Char → Option (List Char)
  | [] => none
  | c :: rest =>
    if c = '\n' then none
    else if term rest then some [c]
    else (tryCapture term rest).map (c :: ·)

/-- `re.search` for `hdr(.+?)term`: try every start position from the left;
at the first position where the header matches and the lazy capture
succeeds, return the captured group. -/
def searchPat (hdr : List Char → Option (List Char)) (term : List Char → Bool) :
    List Char → Option (List Char)
  | [] =>
    match hdr [] with
    | some r => tryCapture term r
    | none => none
  | c :: t =>
    match hdr (c :: t) with
    | some r =>
      match tryCapture term r with
      | some cap => some cap
      | none => searchPat hdr term t
    | none => searchPat hdr term t

/-! ### Python dicts as insertion-ordered association lists -/

/-- A Python `dict` with string keys and values. -/
abbrev Dict := List (String × String)

/-- `d[k]` lookup (first occurrence; our dicts never hold duplicate keys). -/
def dictGet : Dict → String → Option String
  | [], _ => none
  | p :: d, k => if p.1 = k then some p.2 else dictGet d k

/-- `d[k] = v`: replace in place if present, else append. -/
def dictSet : Dict → String → String → Dict
  | [], k, v => [(k, v)]
  | p :: d, k, v => if p.1 = k then (k, v) :: d else p :: dictSet d k v

/-- `d.update(e)`: apply every binding of `e` to `d`, in order. -/
def dictUpdate (d e : Dict) : Dict :=
  e.foldl (fun acc p => dictSet acc p.1 p.2) d

/-- The binding a sequence of `dictSet`s from `e` leaves behind for `k`:
the last entry of `e` with key `k`, if any. -/
def lastGet : Dict → String → Option String
  | [], _ => none
  | p :: d, k =>
    match lastGet d k with
    | some v => some v
    | none => if p.1 = k then some p.2 else none

/-! ### `parse_quality_audits` (gethtmls4.py lines 18-111)

The function's input is the flattened text of the `IndexAuditPanel` div;
the DOM lookup is abstracted as an `Option (List Char)` (the panel's text
when the div exists).
-/

/-- The defaults dict of `parse_quality_audits` (lines 23-33); note the
key `"sw Date"` with an embedded space. -/
def pqaDefaults : Dict :=
  [("swIndex", "N/A"), ("swStatus", "N/A"), ("sw Date", "N/A"),
   ("eeIndex", "N/A"), ("eeStatus", "N/A"), ("eeDate", "N/A"),
   ("sma", "N/A"), ("smaStatus", "N/A"), ("smaDate", "N/A")]

/-- `if perc_match: metrics[key] = perc_match.group(1) + "%"`. -/
def setPerc (key : String) (d : Dict) (s : List Char) : Dict :=
  match firstPercent s with
  | some ds => dictSet d key (String.mk (ds ++ ['%']))
  | none => d

/-- The SMA/Software status branches (lines 58-61 and 77-80): `'Approved'`
is tested first, then `'Not approved'` / `'Not Approved'`. -/
def setStatus2 (key : String) (d : Dict) (s : List Char) : Dict :=
  if containsSub "Approved".data s then dictSet d key "Approved"
  else if containsSub "Not approved".data s || containsSub "Not Approved".data s then
    dictSet d key "Not Approved"
  else d

/-- The EE status branches (lines 96-104), including the
`'Approved with conditions'` case and the `+= " (Restriction)"` step
(which reads back the current `eeStatus` value). -/
def setStatusEE (d : Dict) (s : List Char) : Dict :=
  let d1 :=
    if containsSub "Approved with conditions".data s then
      dictSet d "eeStatus" "Approved with conditions"
    else if containsSub "Approved".data s then dictSet d "eeStatus" "Approved"
    else if containsSub "Not approved".data s || containsSub "Not Approved".data s then
      dictSet d "eeStatus" "Not Approved"
    else d
  if containsSub "Restriction".data s then
    match dictGet d1 "eeStatus" with
    | some v => dictSet d1 "eeStatus" (v ++ " (Restriction)")
    | none => d1
  else d1

/-- `if date_match: metrics[key] = date_match.group(1)`. -/
def setDate (key : String) (d : Dict) (s : List Char) : Dict :=
  match firstDate s with
  | some ds => dictSet d key (String.mk ds)
  | none => d

/-- Lines 51-66: updates applied when the SMA segment matched. -/
def applySMA (d : Dict) (s : List Char) : Dict :=
  setDate "smaDate" (setStatus2 "smaStatus" (setPerc "sma" d s) s) s

/-- Lines 70-85: updates applied when the Software segment matched;
the found date is written under `"swDate"`, not `"sw Date"`. -/
def applySW (d : Dict) (s : List Char) : Dict :=
  setDate "swDate" (setStatus2 "swStatus" (setPerc "swIndex" d s) s) s

/-- Lines 89-108: updates applied when the EE segment matched. -/
def applyEE (d : Dict) (s : List Char) : Dict :=
  setDate "eeDate" (setStatusEE (setPerc "eeIndex" d s) s) s

/-- The body of `parse_quality_audits` on the panel's flattened text. -/
def parse_quality_audits_text (t : List Char) : Dict :=
  let d1 :=
    match searchPat smaHdr smaTerm t with
    | some seg => applySMA pqaDefaults seg
    | none => pqaDefaults
  let d2 :=
    match searchPat swHdr swTerm t with
    | some seg => applySW d1 seg
    | none => d1
  match searchPat eeHdr eeTerm t with
  | some seg => applyEE d2 seg
  | none => d2

/-- `parse_quality_audits`: when the `IndexAuditPanel` div is missing the
defaults are returned unchanged (lines 36-38). -/
def parse_quality_audits : Option (List Char) → Dict
  | none => pqaDefaults
  | some t => parse_quality_audits_text t

/-- The `metrics` sub-dict of `data` in `parse_supplier_html` (lines 149-164). -/
def dataMetricsInit : Dict :=
  [("swIndex", "N/A"), ("swStatus", "N/A"), ("swDate", "N/A"),
   ("eeIndex", "N/A"), ("eeStatus", "N/A"), ("eeDate", "N/A"),
   ("sma", "N/A"), ("smaStatus", "N/A"), ("smaDate", "N/A"),
   ("csr", "N/A"), ("csrStatus", "N/A"), ("csrDate", "N/A"),
   ("saq", "N/A"), ("saqStatus", "N/A")]

/-- `data['metrics'].update(parse_quality_audits(soup))` (lines 370-371):
the record's final quality metrics. -/
def metricsFinal (panel : Option (List Char)) : Dict :=
  dictUpdate dataMetricsInit (parse_quality_audits panel)

/-! Per-segment extraction values, used to state what the three regex
passes recover from each segment. -/

/-- The percentage value a segment contributes (`'\d+%'`, else `N/A`). -/
def percValue (s : List Char) : String :=
  match firstPercent s with
  | some ds => String.mk (ds ++ ['%'])
  | none => "N/A"

/-- The status the SMA/Software branch order computes. -/
def status2Value (s : List Char) : String :=
  if containsSub "Approved".data s then "Approved"
  else if containsSub "Not approved".data s || containsSub "Not Approved".data s then
    "Not Approved"
  else "N/A"

/-- The status the EE branch order computes. -/
def statusEEValue (s : List Char) : String :=
  let base :=
    if containsSub "Approved with conditions".data s then "Approved with conditions"
    else if containsSub "Approved".data s then "Approved"
    else if containsSub "Not approved".data s || containsSub "Not Approved".data s then
      "Not Approved"
    else "N/A"
  if containsSub "Restriction".data s then base ++ " (Restriction)" else base

/-- The date value a segment contributes (`YYYY-MM-DD`, else `N/A`). -/
def dateValue (s : List Char) : String :=
  match firstDate s with
  | some ds => String.mk ds
  | none => "N/A"

/-- The three header literals in their canonical page spelling. -/
def smaLit : List Char := "SMA / Criticality 1 Index".data

/-- Canonical `Software Index` heading. -/
def swLit : List Char := "Software Index".data

/-- Canonical `EE Index` heading. -/
def eeLit : List Char := "EE Index".data

/-- An audit-panel text holding the three quality segments in reading
order: SMA heading, SMA body, Software heading, Software body, EE heading,
EE body. -/
def segText (s1 s2 s3 : List Char) : List Char :=
  smaLit ++ (s1 ++ (swLit ++ (s2 ++ (eeLit ++ s3))))

/-! ### Certification status (gethtmls4.py lines 212-273) -/

/-- The current instant, at the granularity the comparison
`datetime.strptime(..., '%Y-%m-%d') < datetime.now()` observes: the
current date (encoded `y*10000 + m*100 + d`, an order-embedding of valid
calendar dates) plus whether the time is past 00:00:00. -/
structure NowT where
  date : ℕ
  afterMidnight : Bool

/-- Encode a matched `YYYY-MM-DD` string as `y*10000 + m*100 + d`. -/
def dateNum (ds : List Char) : ℕ := digitsToNat (ds.filter Char.isDigit)

/-- `datetime.strptime(e, '%Y-%m-%d') < datetime.now()`. -/
def dtBefore (e : ℕ) (t : NowT) : Bool :=
  e < t.date || (e = t.date && t.afterMidnight)

/-- Status/status-class of a quality or environmental certification cell
(lines 224-232 and 256-263): start from `Approved`; a past expiry date
forces `Expired`.  No approval keyword in the cell is ever consulted. -/
def certAuditStatus (t : NowT) (cert : List Char) : String × String :=
  match firstExpire cert with
  | some ds =>
    if dtBefore (dateNum ds) t then ("Expired", "status-expired")
    else ("Approved", "status-approved")
  | none => ("Approved", "status-approved")

/-! ### Audit entries, CSR classification, padding -/

/-- An entry of `data['audits']`. -/
structure AuditEntry where
  title : String
  status : String
  statusClass : String
  date : String
deriving DecidableEq

/-- The placeholder entry appended by the padding loop (lines 438-443). -/
def naAudit : AuditEntry := ⟨"N/A", "N/A", "status-na", "N/A"⟩

/-- CSR classification by percentage (lines 346-354). -/
def csrClassify (p : ℕ) : String × String :=
  if 80 ≤ p then ("status-approved", "Approved")
  else if 60 ≤ p then ("status-pending", "Pending")
  else ("status-not-approved", "Not Approved")

/-- The CSR cell handler (lines 337-367): when the cell text holds a
percentage, produce the audits entry and the `csrStatus` metric value. -/
def csrBlock (csr : List Char) : Option (AuditEntry × String) :=
  match firstPercent csr with
  | some ds =>
    let p := digitsToNat ds
    let cls := (csrClassify p).1
    let st := (csrClassify p).2
    let dstr :=
      match firstEvaluated csr with
      | some d => String.mk d
      | none => "N/A"
    some (⟨"CSR", toString p ++ "%", cls, "Eval: " ++ dstr⟩, st)
  | none => none

/-- The `while len(data['audits']) < 6` padding loop (lines 437-443). -/
def padAudits (l : List AuditEntry) : List AuditEntry :=
  if l.length < 6 then padAudits (l ++ [naAudit]) else l
termination_by 6 - l.length
decreasing_by simp; omega

/-! ### The synthetic QPM/PPM series (gethtmls4.py lines 396-425) -/

/-- An abstract deterministic pseudo-random generator together with the
float rounding `round(x, 1)`: `seedOf` is `random.seed`, `uniform a b` is
`random.uniform(a, b)` (returning the draw and the advanced state). -/
structure RngModel where
  S : Type
  seedOf : ℤ → S
  uniform : ℚ → ℚ → S → ℚ × S
  round1 : ℚ → ℚ

/-- `int(qpm_val) if qpm_val > 0 else 42` (line 406); the parsed value is
non-negative, so `int` truncation is the floor. -/
def seedVal (qv : ℚ) : ℤ := if 0 < qv then ⌊qv⌋ else 42

/-- The 12-iteration jitter loop (lines 411-415): per month one QPM draw
in `[-10, 10]` and then one PPM draw in `[-5, 5]` from the shared state,
each clamped by `max(0, round(..., 1))`. -/
def genLoop (M : RngModel) (qv pv : ℚ) : ℕ → M.S → List ℚ × List ℚ × M.S
  | 0, σ => ([], [], σ)
  | n + 1, σ =>
    let uq := M.uniform (-10) 10 σ
    let up := M.uniform (-5) 5 uq.2
    let q := max 0 (M.round1 (qv + uq.1))
    let p := max 0 (M.round1 (pv + up.1))
    let rest := genLoop M qv pv n up.2
    (q :: rest.1, p :: rest.2.1, rest.2.2)

/-- `values[-1] = v`. -/
def setLastVal (l : List ℚ) (v : ℚ) : List ℚ := l.dropLast ++ [v]

/-- Lines 406-420: seed from the actual QPM value (discarding the prior
generator state), generate twelve jittered points for each series, then
force the final point to the exact actual value when it is positive. -/
def genSeries (M : RngModel) (σ0 : M.S) (qv pv : ℚ) : List ℚ × List ℚ :=
  let _ := σ0
  let σ := M.seedOf (seedVal qv)
  let r := genLoop M qv pv 12 σ
  let qs := if 0 < qv then setLastVal r.1 qv else r.1
  let ps := if 0 < pv then setLastVal r.2.1 pv else r.2.1
  (qs, ps)

/-- The fixed month labels (lines 402-403). -/
def monthLabels : List String :=
  ["Jan", "Feb", "Mar", "Apr", "May", "Jun",
   "Jul", "Aug", "Sep", "Oct", "Nov", "Dec"]

/-- One of `data['qpm']` / `data['ppm']`: parallel month and value lists. -/
structure Series where
  months : List String
  values : List ℚ
deriving DecidableEq

/-- `float(s) if s.replace('.', '').isdigit() else 0` (lines 398-399):
`none` models the `ValueError` that `float` raises when the digits-plus-
dots text has more than one dot (caught by the surrounding `except`,
leaving the series unset). -/
def parseFloatGuard (s : List Char) : Option ℚ :=
  let stripped := s.filter (fun c => c ≠ '.')
  if !stripped.isEmpty && stripped.all Char.isDigit then
    if s.count '.' ≤ 1 then
      let intPart := s.takeWhile (fun c => c ≠ '.')
      let fracPart := (s.dropWhile (fun c => c ≠ '.')).drop 1
      some ((digitsToNat intPart : ℚ) + (digitsToNat fracPart : ℚ) / ((10 : ℚ) ^ fracPart.length))
    else none
  else some 0

/-- Lines 374-425, abstracted over the DOM: the input is the
`(ppm_actual, qpm_actual)` cell texts of the supplier-total row when the
`tblSales2` table and such a row exist.  Without them — or when `float`
raises — both series keep their initial empty lists (lines 165-172). -/
def parse_performance_series (M : RngModel) (σ0 : M.S) :
    Option (List Char × List Char) → Series × Series
  | none => (⟨[], []⟩, ⟨[], []⟩)
  | some (ppmA, qpmA) =>
    match parseFloatGuard qpmA, parseFloatGuard ppmA with
    | some qv, some pv =>
      let r := genSeries M σ0 qv pv
      (⟨monthLabels, r.1⟩, ⟨monthLabels, r.2⟩)
    | _, _ => (⟨[], []⟩, ⟨[], []⟩)

/-- A trivial generator instance used to exhibit concrete runs. -/
abbrev rngDemo : RngModel :=
  ⟨ℕ, Int.toNat, fun a _ σ => (a, σ + 1), fun q => q⟩

/-! ### Page classification (getweb.py lines 167-196) -/

/-- Login markers (line 170), checked against title and body. -/
def loginMarkers : List (List Char) :=
  ["login".data, "sign in".data, "authenticate".data, "logon".data]

/-- Access-denied markers (line 176). -/
def deniedMarkers : List (List Char) :=
  ["access denied".data, "permission denied".data,
   "not authorized".data, "forbidden".data]

/-- The outcome classification of `scrape_volvo_scorecard` (lines
167-206): the three error classes are checked in order against the
lowercased text; the first match returns `(None, message)`, otherwise the
page content is returned with no error. -/
def scrape_volvo_scorecard_classify (sid : String) (title src : List Char) :
    Option (List Char) × Option String :=
  let tl := strLower title
  let sl := strLower src
  if loginMarkers.any (fun t => containsSub t tl || containsSub t sl) then
    (none, some ("Login page detected for supplier " ++ sid ++ " - authentication required"))
  else if deniedMarkers.any (fun t => containsSub t sl) then
    (none, some ("Access denied for supplier " ++ sid))
  else if containsSub "supplier not found".data sl || containsSub "no supplier".data sl then
    (none, some ("Supplier " ++ sid ++ " not found"))
  else (some src, none)

/-! ### TOML supplier-ID loading (getweb.py lines 414-441) -/

/-- `sorted(set(all_codes))` where `all_codes` is the concatenation of all
people's `parma_codes` lists. -/
def uniqueCodes (people : List (List ℕ)) : List ℕ :=
  List.insertionSort (· ≤ ·) people.flatten.dedup

/-- `load_supplier_ids_from_toml`, abstracted over the file/TOML layer:
the input is the list of `parma_codes` lists of the `people` entries; an
empty union yields `None` (lines 419-429). -/
def load_supplier_ids_from_toml (people : List (List ℕ)) : Option (List ℕ) :=
  let u := uniqueCodes people
  if u.isEmpty then none else some u

/-! ### Dictionary lemmas -/

lemma dictGet_set_self (d : Dict) (k v : String) : dictGet (dictSet d k v) k = some v := by
  induction d with
  | nil => simp [dictSet, dictGet]
  | cons p d ih =>
    by_cases h : p.1 = k
    · simp [dictSet, h, dictGet]
    · simp [dictSet, h, dictGet, ih]

lemma dictGet_set_ne (d : Dict) (k v k' : String) (h : k' ≠ k) :
    dictGet (dictSet d k v) k' = dictGet d k' := by
  have h' : ¬(k = k') := fun hh => h hh.symm
  induction d with
  | nil => simp [dictSet, dictGet, h']
  | cons p d ih =>
    by_cases hp : p.1 = k
    · simp [dictSet, dictGet, hp, h']
    · simp [dictSet, dictGet, hp, ih]

lemma lastGet_set_ne (d : Dict) (k v k' : String) (h : k' ≠ k) :
    lastGet (dictSet d k v) k' = lastGet d k' := by
  have h' : ¬(k = k') := fun hh => h hh.symm
  induction d with
  | nil => simp [dictSet, lastGet, h']
  | cons p d ih =>
    by_cases hp : p.1 = k
    · simp only [dictSet, hp, if_pos]
      simp only [lastGet, hp]
      cases hl : lastGet d k' <;> simp [hl, h']
    · simp only [dictSet, hp, if_neg, ite_false]
      simp only [lastGet, ih]

lemma lastGet_append_single (e : Dict) (k0 v0 : String) (k : String) :
    lastGet (e ++ [(k0, v0)]) k = if k0 = k then some v0 else lastGet e k := by
  induction e with
  | nil => simp [lastGet]
  | cons p e ih =>
    rw [List.cons_append]
    simp only [lastGet, ih]
    by_cases h : k0 = k
    · simp [h]
    · simp only [if_neg h]

lemma dictGet_update (d e : Dict) (k : String) :
    dictGet (dictUpdate d e) k
      = match lastGet e k with
        | some v => some v
        | none => dictGet d k := by
  induction e using List.reverseRecOn with
  | nil => simp [dictUpdate, lastGet]
  | append_singleton e p ih =>
    have hfold : dictUpdate d (e ++ [p]) = dictSet (dictUpdate d e) p.1 p.2 := by
      simp [dictUpdate, List.foldl_append]
    rw [hfold, lastGet_append_single]
    by_cases h : p.1 = k
    · subst h
      simp [dictGet_set_self]
    · have h' : k ≠ p.1 := fun hh => h hh.symm
      rw [dictGet_set_ne _ _ _ _ h', ih]
      simp [h]

/-! ### Search lemmas -/

lemma smaHdr_lit (r : List Char) : smaHdr (smaLit ++ r) = some r := rfl

lemma swHdr_lit (r : List Char) : swHdr (swLit ++ r) = some r := rfl

lemma eeHdr_lit (r : List Char) : eeHdr (eeLit ++ r) = some r := rfl

lemma startsWithCI_swLit (r : List Char) : startsWithCI "Software Index".data (swLit ++ r) = true := rfl

lemma startsWithCI_eeLit (r : List Char) : startsWithCI "EE Index".data (eeLit ++ r) = true := rfl

lemma tryCapture_exact (term : List Char → Bool) (s t : List Char)
    (hne : s ≠ []) (hnl : ∀ c ∈ s, c ≠ '\n')
    (hterm : ∀ j, j < s.length → 0 < j → term (s.drop j ++ t) = false)
    (hend : term t = true) :
    tryCapture term (s ++ t) = some s := by
  induction s with
  | nil => exact absurd rfl hne
  | cons c s ih =>
    have hc : c ≠ '\n' := hnl c (List.mem_cons_self c s)
    cases s with
    | nil => simp [tryCapture, hc, hend]
    | cons d s' =>
      have hmid : term ((d :: s') ++ t) = false := by
        have := hterm 1 (by simp) (by omega)
        simpa using this
      have hrec : tryCapture term ((d :: s') ++ t) = some (d :: s') := by
        apply ih
        · simp
        · intro x hx
          exact hnl x (List.mem_cons_of_mem c hx)
        · intro j hj hj0
          have := hterm (j + 1) (by simpa using Nat.succ_lt_succ hj) (by omega)
          simpa using this
      rw [List.cons_append] at hrec hmid
      rw [List.cons_append, tryCapture, if_neg hc]
      rw [List.cons_append]
      rw [hmid]
      simp [hrec]

lemma searchPat_hit (hdr : List Char → Option (List Char)) (term : List Char → Bool)
    (s r cap : List Char) (hh : hdr s = some r) (hc : tryCapture term r = some cap) :
    searchPat hdr term s = some cap := by
  cases s with
  | nil => simp [searchPat, hh, hc]
  | cons c t => simp [searchPat, hh, hc]

lemma searchPat_skip (hdr : List Char → Option (List Char)) (term : List Char → Bool)
    (pre rest : List Char)
    (h : ∀ j, j < pre.length → hdr (pre.drop j ++ rest) = none) :
    searchPat hdr term (pre ++ rest) = searchPat hdr term rest := by
  induction pre with
  | nil => rfl
  | cons c pre ih =>
    have h0 : hdr (c :: (pre ++ rest)) = none := by
      have := h 0 (by simp)
      simpa using this
    have hrec : searchPat hdr term (pre ++ rest) = searchPat hdr term rest := by
      apply ih
      intro j hj
      have := h (j + 1) (by simpa using Nat.succ_lt_succ hj)
      simpa using this
    rw [List.cons_append, searchPat]
    rw [h0]
    exact hrec

/-! ### Field-update lemmas for the quality-audit appliers -/

lemma setPerc_get_ne (key : String) (d : Dict) (s : List Char) (k : String) (h : k ≠ key) :
    dictGet (setPerc key d s) k = dictGet d k := by
  unfold setPerc
  cases firstPercent s with
  | none => rfl
  | some ds => exact dictGet_set_ne d key _ k h

lemma setPerc_get_self (key : String) (d : Dict) (s : List Char)
    (hd : dictGet d key = some "N/A") :
    dictGet (setPerc key d s) key = some (percValue s) := by
  unfold setPerc percValue
  cases firstPercent s with
  | none => simpa using hd
  | some ds => exact dictGet_set_self d key _

lemma setDate_get_ne (key : String) (d : Dict) (s : List Char) (k : String) (h : k ≠ key) :
    dictGet (setDate key d s) k = dictGet d k := by
  unfold setDate
  cases firstDate s with
  | none => rfl
  | some ds => exact dictGet_set_ne d key _ k h

lemma setDate_get_self (key : String) (d : Dict) (s : List Char)
    (hd : dictGet d key = some "N/A") :
    dictGet (setDate key d s) key = some (dateValue s) := by
  unfold setDate dateValue
  cases firstDate s with
  | none => simpa using hd
  | some ds => exact dictGet_set_self d key _

lemma setDate_get_opt (key : String) (d : Dict) (s : List Char) :
    dictGet (setDate key d s) key
      = match firstDate s with
        | some ds => some (String.mk ds)
        | none => dictGet d key := by
  unfold setDate
  cases firstDate s with
  | none => rfl
  | some ds => simp [dictGet_set_self]

lemma setStatus2_get_ne (key : String) (d : Dict) (s : List Char) (k : String) (h : k ≠ key) :
    dictGet (setStatus2 key d s) k = dictGet d k := by
  unfold setStatus2
  by_cases h1 : containsSub "Approved".data s = true
  · simp [h1, dictGet_set_ne d key _ k h]
  · by_cases h2 : (containsSub "Not approved".data s || containsSub "Not Approved".data s) = true
    · simp [h1, h2, dictGet_set_ne d key _ k h]
    · simp [h1, h2]

lemma setStatus2_get_self (key : String) (d : Dict) (s : List Char)
    (hd : dictGet d key = some "N/A") :
    dictGet (setStatus2 key d s) key = some (status2Value s) := by
  unfold setStatus2 status2Value
  by_cases h1 : containsSub "Approved".data s = true
  · simp [h1, dictGet_set_self]
  · by_cases h2 : (containsSub "Not approved".data s || containsSub "Not Approved".data s) = true
    · simp [h1, h2, dictGet_set_self]
    · simp [h1, h2, hd]

lemma setStatusEE_get_ne (d : Dict) (s : List Char) (k : String) (h : k ≠ "eeStatus") :
    dictGet (setStatusEE d s) k = dictGet d k := by
  have hne : ∀ (d' : Dict) (v : String), dictGet (dictSet d' "eeStatus" v) k = dictGet d' k :=
    fun d' v => dictGet_set_ne d' "eeStatus" v k h
  unfold setStatusEE
  by_cases hr : containsSub "Restriction".data s = true <;>
    by_cases h1 : containsSub "Approved with conditions".data s = true <;>
      by_cases h2 : containsSub "Approved".data s = true <;>
        by_cases h3 : (containsSub "Not approved".data s || containsSub "Not Approved".data s) = true <;>
          cases hdg : dictGet d "eeStatus" <;>
            simp [hr, h1, h2, h3, hdg, hne, dictGet_set_self]

lemma setStatusEE_get_self (d : Dict) (s : List Char)
    (hd : dictGet d "eeStatus" = some "N/A") :
    dictGet (setStatusEE d s) "eeStatus" = some (statusEEValue s) := by
  unfold setStatusEE statusEEValue
  by_cases hr : containsSub "Restriction".data s = true <;>
    by_cases h1 : containsSub "Approved with conditions".data s = true <;>
      by_cases h2 : containsSub "Approved".data s = true <;>
        by_cases h3 : (containsSub "Not approved".data s || containsSub "Not Approved".data s) = true <;>
          simp [hr, h1, h2, h3, hd, dictGet_set_self]

lemma applySMA_get_ne (d : Dict) (s : List Char) (k : String)
    (h1 : k ≠ "sma") (h2 : k ≠ "smaStatus") (h3 : k ≠ "smaDate") :
    dictGet (applySMA d s) k = dictGet d k := by
  unfold applySMA
  rw [setDate_get_ne _ _ _ _ h3, setStatus2_get_ne _ _ _ _ h2, setPerc_get_ne _ _ _ _ h1]

lemma applySW_get_ne (d : Dict) (s : List Char) (k : String)
    (h1 : k ≠ "swIndex") (h2 : k ≠ "swStatus") (h3 : k ≠ "swDate") :
    dictGet (applySW d s) k = dictGet d k := by
  unfold applySW
  rw [setDate_get_ne _ _ _ _ h3, setStatus2_get_ne _ _ _ _ h2, setPerc_get_ne _ _ _ _ h1]

lemma applyEE_get_ne (d : Dict) (s : List Char) (k : String)
    (h1 : k ≠ "eeIndex") (h2 : k ≠ "eeStatus") (h3 : k ≠ "eeDate") :
    dictGet (applyEE d s) k = dictGet d k := by
  unfold applyEE
  rw [setDate_get_ne _ _ _ _ h3, setStatusEE_get_ne _ _ _ h2, setPerc_get_ne _ _ _ _ h1]

lemma applySMA_get_sma (d : Dict) (s : List Char) (hd : dictGet d "sma" = some "N/A") :
    dictGet (applySMA d s) "sma" = some (percValue s) := by
  unfold applySMA
  rw [setDate_get_ne _ _ _ _ (by decide), setStatus2_get_ne _ _ _ _ (by decide)]
  exact setPerc_get_self _ _ _ hd

lemma applySMA_get_status (d : Dict) (s : List Char) (hd : dictGet d "smaStatus" = some "N/A") :
    dictGet (applySMA d s) "smaStatus" = some (status2Value s) := by
  unfold applySMA
  rw [setDate_get_ne _ _ _ _ (by decide)]
  refine setStatus2_get_self _ _ _ ?_
  rw [setPerc_get_ne _ _ _ _ (by decide)]
  exact hd

lemma applySMA_get_date (d : Dict) (s : List Char) (hd : dictGet d "smaDate" = some "N/A") :
    dictGet (applySMA d s) "smaDate" = some (dateValue s) := by
  unfold applySMA
  refine setDate_get_self _ _ _ ?_
  rw [setStatus2_get_ne _ _ _ _ (by decide), setPerc_get_ne _ _ _ _ (by decide)]
  exact hd

lemma applySW_get_index (d : Dict) (s : List Char) (hd : dictGet d "swIndex" = some "N/A") :
    dictGet (applySW d s) "swIndex" = some (percValue s) := by
  unfold applySW
  rw [setDate_get_ne _ _ _ _ (by decide), setStatus2_get_ne _ _ _ _ (by decide)]
  exact setPerc_get_self _ _ _ hd

lemma applySW_get_status (d : Dict) (s : List Char) (hd : dictGet d "swStatus" = some "N/A") :
    dictGet (applySW d s) "swStatus" = some (status2Value s) := by
  unfold applySW
  rw [setDate_get_ne _ _ _ _ (by decide)]
  refine setStatus2_get_self _ _ _ ?_
  rw [setPerc_get_ne _ _ _ _ (by decide)]
  exact hd

lemma applySW_get_date (d : Dict) (s : List Char) :
    dictGet (applySW d s) "swDate"
      = match firstDate s with
        | some ds => some (String.mk ds)
        | none => dictGet d "swDate" := by
  unfold applySW
  rw [setDate_get_opt]
  have hkeep : dictGet (setStatus2 "swStatus" (setPerc "swIndex" d s) s) "swDate"
      = dictGet d "swDate" := by
    rw [setStatus2_get_ne _ _ _ _ (by decide), setPerc_get_ne _ _ _ _ (by decide)]
  rw [hkeep]

lemma applyEE_get_index (d : Dict) (s : List Char) (hd : dictGet d "eeIndex" = some "N/A") :
    dictGet (applyEE d s) "eeIndex" = some (percValue s) := by
  unfold applyEE
  rw [setDate_get_ne _ _ _ _ (by decide), setStatusEE_get_ne _ _ _ (by decide)]
  exact setPerc_get_self _ _ _ hd

lemma applyEE_get_status (d : Dict) (s : List Char) (hd : dictGet d "eeStatus" = some "N/A") :
    dictGet (applyEE d s) "eeStatus" = some (statusEEValue s) := by
  unfold applyEE
  rw [setDate_get_ne _ _ _ _ (by decide)]
  refine setStatusEE_get_self _ _ ?_
  rw [setPerc_get_ne _ _ _ _ (by decide)]
  exact hd

lemma applyEE_get_date (d : Dict) (s : List Char) (hd : dictGet d "eeDate" = some "N/A") :
    dictGet (applyEE d s) "eeDate" = some (dateValue s) := by
  unfold applyEE
  refine setDate_get_self _ _ _ ?_
  rw [setStatusEE_get_ne _ _ _ (by decide), setPerc_get_ne _ _ _ _ (by decide)]
  exact hd

/-! ### `lastGet` preservation (the `"sw Date"` binding is never touched) -/

lemma lastGet_setPerc_ne (key : String) (d : Dict) (s : List Char) (k : String) (h : k ≠ key) :
    lastGet (setPerc key d s) k = lastGet d k := by
  unfold setPerc
  cases firstPercent s with
  | none => rfl
  | some ds => exact lastGet_set_ne d key _ k h

lemma lastGet_setDate_ne (key : String) (d : Dict) (s : List Char) (k : String) (h : k ≠ key) :
    lastGet (setDate key d s) k = lastGet d k := by
  unfold setDate
  cases firstDate s with
  | none => rfl
  | some ds => exact lastGet_set_ne d key _ k h

lemma lastGet_setStatus2_ne (key : String) (d : Dict) (s : List Char) (k : String) (h : k ≠ key) :
    lastGet (setStatus2 key d s) k = lastGet d k := by
  unfold setStatus2
  by_cases h1 : containsSub "Approved".data s = true
  · simp [h1, lastGet_set_ne d key _ k h]
  · by_cases h2 : (containsSub "Not approved".data s || containsSub "Not Approved".data s) = true
    · simp [h1, h2, lastGet_set_ne d key _ k h]
    · simp [h1, h2]

lemma lastGet_setStatusEE_ne (d : Dict) (s : List Char) (k : String) (h : k ≠ "eeStatus") :
    lastGet (setStatusEE d s) k = lastGet d k := by
  have hne : ∀ (d' : Dict) (v : String), lastGet (dictSet d' "eeStatus" v) k = lastGet d' k :=
    fun d' v => lastGet_set_ne d' "eeStatus" v k h
  unfold setStatusEE
  by_cases hr : containsSub "Restriction".data s = true <;>
    by_cases h1 : containsSub "Approved with conditions".data s = true <;>
      by_cases h2 : containsSub "Approved".data s = true <;>
        by_cases h3 : (containsSub "Not approved".data s || containsSub "Not Approved".data s) = true <;>
          cases hdg : dictGet d "eeStatus" <;>
            simp [hr, h1, h2, h3, hdg, hne, dictGet_set_self]

lemma lastGet_applySMA_swsp (d : Dict) (s : List Char) :
    lastGet (applySMA d s) "sw Date" = lastGet d "sw Date" := by
  unfold applySMA
  rw [lastGet_setDate_ne _ _ _ _ (by decide), lastGet_setStatus2_ne _ _ _ _ (by decide),
    lastGet_setPerc_ne _ _ _ _ (by decide)]

lemma lastGet_applySW_swsp (d : Dict) (s : List Char) :
    lastGet (applySW d s) "sw Date" = lastGet d "sw Date" := by
  unfold applySW
  rw [lastGet_setDate_ne _ _ _ _ (by decide), lastGet_setStatus2_ne _ _ _ _ (by decide),
    lastGet_setPerc_ne _ _ _ _ (by decide)]

lemma lastGet_applyEE_swsp (d : Dict) (s : List Char) :
    lastGet (applyEE d s) "sw Date" = lastGet d "sw Date" := by
  unfold applyEE
  rw [lastGet_setDate_ne _ _ _ _ (by decide), lastGet_setStatusEE_ne _ _ _ (by decide),
    lastGet_setPerc_ne _ _ _ _ (by decide)]

/-- The quality-audit dict always carries `"sw Date" ↦ "N/A"`: the default
declares it and no extraction step ever writes that key. -/
lemma lastGet_pqa_swsp (panel : Option (List Char)) :
    lastGet (parse_quality_audits panel) "sw Date" = some "N/A" := by
  have hbase : lastGet pqaDefaults "sw Date" = some "N/A" := by decide
  cases panel with
  | none => exact hbase
  | some t =>
    show lastGet (parse_quality_audits_text t) "sw Date" = some "N/A"
    unfold parse_quality_audits_text
    cases searchPat smaHdr smaTerm t <;>
      cases searchPat swHdr swTerm t <;>
        cases searchPat eeHdr eeTerm t <;>
          simp [lastGet_applySMA_swsp, lastGet_applySW_swsp, lastGet_applyEE_swsp, hbase]

/-! ### The three regex passes on a well-formed three-segment panel text -/

lemma search_sma_seg (s1 s2 s3 : List Char)
    (h1ne : s1 ≠ []) (h1nl : ∀ c ∈ s1, c ≠ '\n')
    (h1t : ∀ j, j < s1.length → 0 < j →
      smaTerm (s1.drop j ++ (swLit ++ (s2 ++ (eeLit ++ s3)))) = false) :
    searchPat smaHdr smaTerm (segText s1 s2 s3) = some s1 := by
  have hh : smaHdr (segText s1 s2 s3) = some (s1 ++ (swLit ++ (s2 ++ (eeLit ++ s3)))) := by
    unfold segText
    exact smaHdr_lit _
  have hc : tryCapture smaTerm (s1 ++ (swLit ++ (s2 ++ (eeLit ++ s3)))) = some s1 := by
    apply tryCapture_exact _ _ _ h1ne h1nl h1t
    unfold smaTerm
    rw [startsWithCI_swLit]
    simp
  exact searchPat_hit _ _ _ _ _ hh hc

lemma search_sw_seg (s1 s2 s3 : List Char)
    (h2ne : s2 ≠ []) (h2nl : ∀ c ∈ s2, c ≠ '\n')
    (h2t : ∀ j, j < s2.length → 0 < j → swTerm (s2.drop j ++ (eeLit ++ s3)) = false)
    (hsw : ∀ j, j < (smaLit ++ s1).length →
      swHdr ((smaLit ++ s1).drop j ++ (swLit ++ (s2 ++ (eeLit ++ s3)))) = none) :
    searchPat swHdr swTerm (segText s1 s2 s3) = some s2 := by
  have htext : segText s1 s2 s3 = (smaLit ++ s1) ++ (swLit ++ (s2 ++ (eeLit ++ s3))) := by
    unfold segText
    simp [List.append_assoc]
  rw [htext, searchPat_skip _ _ _ _ hsw]
  have hh : swHdr (swLit ++ (s2 ++ (eeLit ++ s3))) = some (s2 ++ (eeLit ++ s3)) := swHdr_lit _
  have hc : tryCapture swTerm (s2 ++ (eeLit ++ s3)) = some s2 := by
    apply tryCapture_exact _ _ _ h2ne h2nl h2t
    unfold swTerm
    rw [startsWithCI_eeLit]
    simp
  exact searchPat_hit _ _ _ _ _ hh hc

lemma search_ee_seg (s1 s2 s3 : List Char)
    (h3ne : s3 ≠ []) (h3nl : ∀ c ∈ s3, c ≠ '\n')
    (hee : ∀ j, j < (smaLit ++ (s1 ++ (swLit ++ s2))).length →
      eeHdr ((smaLit ++ (s1 ++ (swLit ++ s2))).drop j ++ (eeLit ++ s3)) = none) :
    searchPat eeHdr eeTerm (segText s1 s2 s3) = some s3 := by
  have htext : segText s1 s2 s3 = (smaLit ++ (s1 ++ (swLit ++ s2))) ++ (eeLit ++ s3) := by
    unfold segText
    simp [List.append_assoc]
  rw [htext, searchPat_skip _ _ _ _ hee]
  have hh : eeHdr (eeLit ++ s3) = some s3 := eeHdr_lit _
  have hc : tryCapture eeTerm s3 = some s3 := by
    have hterm : ∀ j, j < s3.length → 0 < j → eeTerm (s3.drop j ++ []) = false := by
      intro j hj hj0
      have hne' : s3.drop j ≠ [] := by
        intro hcon
        have := congrArg List.length hcon
        simp at this
        omega
      have hnl' : s3.drop j ≠ ['\n'] := by
        intro hcon
        have hmem : '\n' ∈ s3.drop j := by simp [hcon]
        exact h3nl '\n' (List.mem_of_mem_drop hmem) rfl
      simp [eeTerm, atEndDollar, hne', hnl']
    have := tryCapture_exact eeTerm s3 [] h3ne h3nl hterm rfl
    simpa using this
  exact searchPat_hit _ _ _ _ _ hh hc

/-- C1 (amended): for every audit-panel text consisting of the three
quality segments in reading order — hypotheses: segments are non-empty and
newline-free, no capture terminator fires strictly inside the SMA or
Software segment (the SMA segment ends where `Software Index` or
`EE Index` begins, the Software segment where `EE Index` begins, the EE
segment at the end of the text), and the `Software Index` / `EE Index`
header patterns do not match before their own segments —
`parse_quality_audits` recovers, for each segment independently and
regardless of its length, the segment's own first `\d+%` percentage and
first `YYYY-MM-DD` date, and the status the code's branch order computes:
`Approved` whenever the segment contains the substring `Approved`
(including inside `Not Approved`), `Not Approved` only when it contains
`Not approved`/`Not Approved` but not `Approved` itself, with the EE
segment additionally preferring `Approved with conditions` and appending
`" (Restriction)"` when `Restriction` occurs. -/
theorem c1_segments_amended (s1 s2 s3 : List Char)
    (h1ne : s1 ≠ []) (h2ne : s2 ≠ []) (h3ne : s3 ≠ [])
    (h1nl : ∀ c ∈ s1, c ≠ '\n') (h2nl : ∀ c ∈ s2, c ≠ '\n') (h3nl : ∀ c ∈ s3, c ≠ '\n')
    (h1t : ∀ j, j < s1.length → 0 < j →
      smaTerm (s1.drop j ++ (swLit ++ (s2 ++ (eeLit ++ s3)))) = false)
    (h2t : ∀ j, j < s2.length → 0 < j → swTerm (s2.drop j ++ (eeLit ++ s3)) = false)
    (hsw : ∀ j, j < (smaLit ++ s1).length →
      swHdr ((smaLit ++ s1).drop j ++ (swLit ++ (s2 ++ (eeLit ++ s3)))) = none)
    (hee : ∀ j, j < (smaLit ++ (s1 ++ (swLit ++ s2))).length →
      eeHdr ((smaLit ++ (s1 ++ (swLit ++ s2))).drop j ++ (eeLit ++ s3)) = none) :
    dictGet (parse_quality_audits_text (segText s1 s2 s3)) "sma" = some (percValue s1)
    ∧ dictGet (parse_quality_audits_text (segText s1 s2 s3)) "smaStatus" = some (status2Value s1)
    ∧ dictGet (parse_quality_audits_text (segText s1 s2 s3)) "smaDate" = some (dateValue s1)
    ∧ dictGet (parse_quality_audits_text (segText s1 s2 s3)) "swIndex" = some (percValue s2)
    ∧ dictGet (parse_quality_audits_text (segText s1 s2 s3)) "swStatus" = some (status2Value s2)
    ∧ dictGet (parse_quality_audits_text (segText s1 s2 s3)) "swDate"
        = (firstDate s2).map (fun ds => String.mk ds)
    ∧ dictGet (parse_quality_audits_text (segText s1 s2 s3)) "eeIndex" = some (percValue s3)
    ∧ dictGet (parse_quality_audits_text (segText s1 s2 s3)) "eeStatus" = some (statusEEValue s3)
    ∧ dictGet (parse_quality_audits_text (segText s1 s2 s3)) "eeDate" = some (dateValue s3) := by
  have hs1 := search_sma_seg s1 s2 s3 h1ne h1nl h1t
  have hs2 := search_sw_seg s1 s2 s3 h2ne h2nl h2t hsw
  have hs3 := search_ee_seg s1 s2 s3 h3ne h3nl hee
  have hd : parse_quality_audits_text (segText s1 s2 s3)
      = applyEE (applySW (applySMA pqaDefaults s1) s2) s3 := by
    unfold parse_quality_audits_text
    rw [hs1, hs2, hs3]
  rw [hd]
  refine ⟨?_, ?_, ?_, ?_, ?_, ?_, ?_, ?_, ?_⟩
  · rw [applyEE_get_ne _ _ _ (by decide) (by decide) (by decide),
      applySW_get_ne _ _ _ (by decide) (by decide) (by decide)]
    exact applySMA_get_sma _ _ (by decide)
  · rw [applyEE_get_ne _ _ _ (by decide) (by decide) (by decide),
      applySW_get_ne _ _ _ (by decide) (by decide) (by decide)]
    exact applySMA_get_status _ _ (by decide)
  · rw [applyEE_get_ne _ _ _ (by decide) (by decide) (by decide),
      applySW_get_ne _ _ _ (by decide) (by decide) (by decide)]
    exact applySMA_get_date _ _ (by decide)
  · rw [applyEE_get_ne _ _ _ (by decide) (by decide) (by decide)]
    refine applySW_get_index _ _ ?_
    rw [applySMA_get_ne _ _ _ (by decide) (by decide) (by decide)]
    decide
  · rw [applyEE_get_ne _ _ _ (by decide) (by decide) (by decide)]
    refine applySW_get_status _ _ ?_
    rw [applySMA_get_ne _ _ _ (by decide) (by decide) (by decide)]
    decide
  · rw [applyEE_get_ne _ _ _ (by decide) (by decide) (by decide), applySW_get_date]
    have hfall : dictGet (applySMA pqaDefaults s1) "swDate" = none := by
      rw [applySMA_get_ne _ _ _ (by decide) (by decide) (by decide)]
      decide
    rw [hfall]
    cases firstDate s2 <;> simp
  · refine applyEE_get_index _ _ ?_
    rw [applySW_get_ne _ _ _ (by decide) (by decide) (by decide),
      applySMA_get_ne _ _ _ (by decide) (by decide) (by decide)]
    decide
  · refine applyEE_get_status _ _ ?_
    rw [applySW_get_ne _ _ _ (by decide) (by decide) (by decide),
      applySMA_get_ne _ _ _ (by decide) (by decide) (by decide)]
    decide
  · refine applyEE_get_date _ _ ?_
    rw [applySW_get_ne _ _ _ (by decide) (by decide) (by decide),
      applySMA_get_ne _ _ _ (by decide) (by decide) (by decide)]
    decide

/-- Sample SMA segment body (the comment at gethtmls4.py line 45). -/
def c1s1 : List Char := " Approved 74% Normal (Toshiaki Hatakeyama , 2017-03-17) ".data

/-- Sample Software segment body (line 46). -/
def c1s2 : List Char := " Approved 81% Normal (Yuji Miura , 2016-12-01) ".data

/-- Sample EE segment body (line 47). -/
def c1s3 : List Char := " Approved with conditions 69% Restriction Normal (2017-03-29)".data

/-- C1 witness: the amended theorem applied to the sample panel text,
with every extracted value evaluated. -/
theorem c1_segments_amended_witness :
    dictGet (parse_quality_audits_text (segText c1s1 c1s2 c1s3)) "sma" = some "74%"
    ∧ dictGet (parse_quality_audits_text (segText c1s1 c1s2 c1s3)) "smaStatus" = some "Approved"
    ∧ dictGet (parse_quality_audits_text (segText c1s1 c1s2 c1s3)) "smaDate" = some "2017-03-17"
    ∧ dictGet (parse_quality_audits_text (segText c1s1 c1s2 c1s3)) "swIndex" = some "81%"
    ∧ dictGet (parse_quality_audits_text (segText c1s1 c1s2 c1s3)) "swStatus" = some "Approved"
    ∧ dictGet (parse_quality_audits_text (segText c1s1 c1s2 c1s3)) "swDate" = some "2016-12-01"
    ∧ dictGet (parse_quality_audits_text (segText c1s1 c1s2 c1s3)) "eeIndex" = some "69%"
    ∧ dictGet (parse_quality_audits_text (segText c1s1 c1s2 c1s3)) "eeStatus"
        = some "Approved with conditions (Restriction)"
    ∧ dictGet (parse_quality_audits_text (segText c1s1 c1s2 c1s3)) "eeDate" = some "2017-03-29" := by
  obtain ⟨a1, a2, a3, a4, a5, a6, a7, a8, a9⟩ :=
    c1_segments_amended c1s1 c1s2 c1s3 (by decide) (by decide) (by decide)
      (by decide) (by decide) (by decide) (by decide) (by decide) (by decide) (by decide)
  refine ⟨?_, ?_, ?_, ?_, ?_, ?_, ?_, ?_, ?_⟩
  · rw [a1]; decide
  · rw [a2]; decide
  · rw [a3]; decide
  · rw [a4]; decide
  · rw [a5]; decide
  · rw [a6]; decide
  · rw [a7]; decide
  · rw [a8]; decide
  · rw [a9]; decide

set_option maxRecDepth 100000 in
/-- C1 counterexample: a well-formed three-segment panel text whose SMA
segment contains the keyword `Not Approved`; the claim requires status
`Not Approved`, but because `'Approved' in sma_text` is checked first (and
`Approved` is a substring of `Not Approved`) the code records `Approved`. -/
theorem c1_status_counterexample :
    containsSub "Not Approved".data " Not Approved 74% (2017-03-17) ".data = true
    ∧ dictGet (parse_quality_audits_text
        (segText " Not Approved 74% (2017-03-17) ".data c1s2 c1s3)) "smaStatus"
      = some "Approved"
    ∧ (some "Approved" : Option String) ≠ some "Not Approved" := by
  refine ⟨by decide, by decide, by decide⟩

/-- C5: for a document with no `IndexAuditPanel` div (the panel lookup
yields nothing), all nine quality-metric fields of the record equal the
placeholder `N/A`; the embedding is total, so no exception arises. -/
theorem c5_missing_panel_defaults :
    dictGet (metricsFinal none) "swIndex" = some "N/A"
    ∧ dictGet (metricsFinal none) "swStatus" = some "N/A"
    ∧ dictGet (metricsFinal none) "swDate" = some "N/A"
    ∧ dictGet (metricsFinal none) "eeIndex" = some "N/A"
    ∧ dictGet (metricsFinal none) "eeStatus" = some "N/A"
    ∧ dictGet (metricsFinal none) "eeDate" = some "N/A"
    ∧ dictGet (metricsFinal none) "sma" = some "N/A"
    ∧ dictGet (metricsFinal none) "smaStatus" = some "N/A"
    ∧ dictGet (metricsFinal none) "smaDate" = some "N/A" := by
  refine ⟨?_, ?_, ?_, ?_, ?_, ?_, ?_, ?_, ?_⟩ <;> decide

/-- C9: for every panel (present or missing, whatever its text), the final
metrics dict binds the mistyped key `"sw Date"` and always to `"N/A"`: the
defaults dict declares `"sw Date"` but the extraction writes found dates
under `"swDate"`, which the `metrics` dict of the record also declares, so
after `update` both keys are present and `"sw Date"` never receives a
date. -/
theorem c9_sw_date_key_mismatch (panel : Option (List Char)) :
    dictGet (metricsFinal panel) "sw Date" = some "N/A"
    ∧ (dictGet (metricsFinal panel) "sw Date").isSome = true
    ∧ (dictGet (metricsFinal panel) "swDate").isSome = true := by
  have h1 : dictGet (metricsFinal panel) "sw Date" = some "N/A" := by
    unfold metricsFinal
    rw [dictGet_update, lastGet_pqa_swsp]
  refine ⟨h1, by rw [h1]; rfl, ?_⟩
  unfold metricsFinal
  rw [dictGet_update]
  cases hl : lastGet (parse_quality_audits panel) "swDate" with
  | none =>
    show (dictGet dataMetricsInit "swDate").isSome = true
    decide
  | some v => rfl

/-! ### Series lemmas -/

lemma getLastVal (l : List ℚ) (v : ℚ) : (setLastVal l v).getLast? = some v := by
  unfold setLastVal
  exact List.getLast?_concat _

lemma genSeries_fst_getLast (M : RngModel) (σ0 : M.S) (qv pv : ℚ) (h : 0 < qv) :
    (genSeries M σ0 qv pv).1.getLast? = some qv := by
  unfold genSeries
  simp only [if_pos h]
  exact getLastVal _ _

lemma genSeries_snd_getLast (M : RngModel) (σ0 : M.S) (qv pv : ℚ) (h : 0 < pv) :
    (genSeries M σ0 qv pv).2.getLast? = some pv := by
  unfold genSeries
  simp only [if_pos h]
  exact getLastVal _ _

lemma genLoop_lengths (M : RngModel) (qv pv : ℚ) :
    ∀ (n : ℕ) (σ : M.S),
      (genLoop M qv pv n σ).1.length = n ∧ (genLoop M qv pv n σ).2.1.length = n := by
  intro n
  induction n with
  | zero => intro σ; simp [genLoop]
  | succ n ih =>
    intro σ
    have h := ih (M.uniform (-5) 5 (M.uniform (-10) 10 σ).2).2
    simp [genLoop, h.1, h.2]

lemma genSeries_lengths (M : RngModel) (σ0 : M.S) (qv pv : ℚ) :
    (genSeries M σ0 qv pv).1.length = 12 ∧ (genSeries M σ0 qv pv).2.length = 12 := by
  have h := genLoop_lengths M qv pv 12 (M.seedOf (seedVal qv))
  unfold genSeries
  constructor <;>
    by_cases h1 : 0 < qv <;> by_cases h2 : 0 < pv <;>
      simp [h1, h2, setLastVal, List.length_dropLast, h.1, h.2]

/-- C2: the series generation is deterministic under re-seeding — the
prior generator state is irrelevant, for any generator model — and when
the actual QPM value is a positive integer `v` the seed is exactly `v` and
the twelfth (final) generated QPM value is exactly `v` (likewise the final
PPM value is the positive actual PPM value). -/
theorem c2_series_seeded_deterministic (M : RngModel) (σ1 σ2 : M.S)
    (ppmA qpmA : List Char) (v p : ℕ)
    (hq : parseFloatGuard qpmA = some ((v : ℕ) : ℚ))
    (hp : parseFloatGuard ppmA = some ((p : ℕ) : ℚ))
    (hv : 0 < v) (hpp : 0 < p) :
    parse_performance_series M σ1 (some (ppmA, qpmA))
      = parse_performance_series M σ2 (some (ppmA, qpmA))
    ∧ (parse_performance_series M σ1 (some (ppmA, qpmA))).1.values.getLast?
        = some ((v : ℕ) : ℚ)
    ∧ (parse_performance_series M σ1 (some (ppmA, qpmA))).2.values.getLast?
        = some ((p : ℕ) : ℚ)
    ∧ seedVal ((v : ℕ) : ℚ) = (v : ℤ) := by
  have hqv : (0 : ℚ) < ((v : ℕ) : ℚ) := by exact_mod_cast hv
  have hpv : (0 : ℚ) < ((p : ℕ) : ℚ) := by exact_mod_cast hpp
  have hrow : parse_performance_series M σ1 (some (ppmA, qpmA))
      = (⟨monthLabels, (genSeries M σ1 ((v : ℕ) : ℚ) ((p : ℕ) : ℚ)).1⟩,
         ⟨monthLabels, (genSeries M σ1 ((v : ℕ) : ℚ) ((p : ℕ) : ℚ)).2⟩) := by
    rw [parse_performance_series, hq, hp]
  refine ⟨rfl, ?_, ?_, ?_⟩
  · rw [hrow]
    exact genSeries_fst_getLast M σ1 _ _ hqv
  · rw [hrow]
    exact genSeries_snd_getLast M σ1 _ _ hpv
  · unfold seedVal
    rw [if_pos hqv]
    exact_mod_cast Int.floor_natCast v

lemma pfg_12 : parseFloatGuard "12".data = some ((12 : ℕ) : ℚ) := by
  have h : parseFloatGuard "12".data
      = some (((12 : ℕ) : ℚ) + ((0 : ℕ) : ℚ) / 10 ^ (0 : ℕ)) := rfl
  rw [h]
  norm_num

lemma pfg_5 : parseFloatGuard "5".data = some ((5 : ℕ) : ℚ) := by
  have h : parseFloatGuard "5".data
      = some (((5 : ℕ) : ℚ) + ((0 : ℕ) : ℚ) / 10 ^ (0 : ℕ)) := rfl
  rw [h]
  norm_num

/-- C2 witness: the theorem at a concrete generator instance with actual
QPM value 12 and PPM value 5, prior states 0 and 1. -/
theorem c2_series_seeded_deterministic_witness :
    parse_performance_series rngDemo 0 (some ("5".data, "12".data))
      = parse_performance_series rngDemo 1 (some ("5".data, "12".data))
    ∧ (parse_performance_series rngDemo 0 (some ("5".data, "12".data))).1.values.getLast?
        = some (((12 : ℕ) : ℚ))
    ∧ (parse_performance_series rngDemo 0 (some ("5".data, "12".data))).2.values.getLast?
        = some (((5 : ℕ) : ℚ))
    ∧ seedVal (((12 : ℕ) : ℚ)) = ((12 : ℕ) : ℤ) :=
  c2_series_seeded_deterministic rngDemo 0 1 "5".data "12".data 12 5
    pfg_12 pfg_5 (by decide) (by decide)

/-- C7 counterexample: for an input with no `tblSales2` supplier-total
row, both series stay empty — the record does not contain length-12
month/value lists, contradicting the claim's "for every HTML input". -/
theorem c7_series_counterexample :
    (parse_performance_series rngDemo 0 none).1.months.length = 0
    ∧ (parse_performance_series rngDemo 0 none).1.values.length = 0
    ∧ (0 : ℕ) ≠ 12 := ⟨rfl, rfl, by decide⟩

/-- C7 (amended): whenever the supplier-total performance row is found and
both actual values parse (so the series generation actually runs), the
record's two series each carry the fixed month labels Jan..Dec and twelve
values. -/
theorem c7_series_amended (M : RngModel) (σ0 : M.S) (ppmA qpmA : List Char) (qv pv : ℚ)
    (hq : parseFloatGuard qpmA = some qv) (hp : parseFloatGuard ppmA = some pv) :
    (parse_performance_series M σ0 (some (ppmA, qpmA))).1.months = monthLabels
    ∧ (parse_performance_series M σ0 (some (ppmA, qpmA))).2.months = monthLabels
    ∧ monthLabels.length = 12
    ∧ (parse_performance_series M σ0 (some (ppmA, qpmA))).1.values.length = 12
    ∧ (parse_performance_series M σ0 (some (ppmA, qpmA))).2.values.length = 12 := by
  have hrow : parse_performance_series M σ0 (some (ppmA, qpmA))
      = (⟨monthLabels, (genSeries M σ0 qv pv).1⟩, ⟨monthLabels, (genSeries M σ0 qv pv).2⟩) := by
    rw [parse_performance_series, hq, hp]
  rw [hrow]
  exact ⟨rfl, rfl, by decide, (genSeries_lengths M σ0 qv pv).1, (genSeries_lengths M σ0 qv pv).2⟩

/-- C7 witness: the amended theorem at the concrete generator instance. -/
theorem c7_series_amended_witness :
    (parse_performance_series rngDemo 0 (some ("5".data, "12".data))).1.months = monthLabels
    ∧ (parse_performance_series rngDemo 0 (some ("5".data, "12".data))).2.months = monthLabels
    ∧ monthLabels.length = 12
    ∧ (parse_performance_series rngDemo 0 (some ("5".data, "12".data))).1.values.length = 12
    ∧ (parse_performance_series rngDemo 0 (some ("5".data, "12".data))).2.values.length = 12 :=
  c7_series_amended rngDemo 0 "5".data "12".data ((12 : ℕ) : ℚ) ((5 : ℕ) : ℚ) pfg_12 pfg_5

/-- C3: for any certification rating cell (quality: `IATF`/`ISO`;
environmental: `ISO 14001`) carrying an `Expire: YYYY-MM-DD` date, a date
strictly earlier than the current date forces status `Expired` with class
`status-expired` — no approval keyword in the cell is ever consulted — and
when the expiry instant is not in the past the status is `Approved` with
class `status-approved`. -/
theorem c3_cert_expiry_overrides (t : NowT) (cert : List Char) (ds : List Char)
    (hgate : (containsSub "IATF".data cert || containsSub "ISO".data cert
      || containsSub "ISO 14001".data cert) = true)
    (hexp : firstExpire cert = some ds) :
    (dateNum ds < t.date → certAuditStatus t cert = ("Expired", "status-expired"))
    ∧ (dtBefore (dateNum ds) t = false
        → certAuditStatus t cert = ("Approved", "status-approved")) := by
  constructor
  · intro hlt
    have hb : dtBefore (dateNum ds) t = true := by
      unfold dtBefore
      simp [hlt]
    simp [certAuditStatus, hexp, hb]
  · intro hf
    simp [certAuditStatus, hexp, hf]

/-- C3 witness: an `ISO 9001` cell with an embedded `Approved` keyword and
a 2020 expiry, evaluated after that date. -/
theorem c3_cert_expiry_overrides_witness :
    firstExpire "ISO 9001 Approved Registrated: 2017-01-01 Expire: 2020-01-01".data
      = some "2020-01-01".data
    ∧ containsSub "Approved".data
        "ISO 9001 Approved Registrated: 2017-01-01 Expire: 2020-01-01".data = true
    ∧ certAuditStatus ⟨20251012, true⟩
        "ISO 9001 Approved Registrated: 2017-01-01 Expire: 2020-01-01".data
      = ("Expired", "status-expired") := by
  refine ⟨by decide, by decide, ?_⟩
  exact (c3_cert_expiry_overrides ⟨20251012, true⟩
    "ISO 9001 Approved Registrated: 2017-01-01 Expire: 2020-01-01".data
    "2020-01-01".data (by decide) (by decide)).1 (by decide)

/-- C4: the CSR classification is `Approved` for a captured percentage of
at least 80, `Pending` for 60..79 and `Not Approved` below 60, and the
classification lands both in the audit entry's status class and in the
`csrStatus` metric. -/
theorem c4_csr_thresholds (csr : List Char) (ds : List Char) (e : AuditEntry) (st : String)
    (hp : firstPercent csr = some ds) (hb : csrBlock csr = some (e, st)) :
    (80 ≤ digitsToNat ds → e.statusClass = "status-approved" ∧ st = "Approved")
    ∧ (60 ≤ digitsToNat ds → digitsToNat ds < 80
        → e.statusClass = "status-pending" ∧ st = "Pending")
    ∧ (digitsToNat ds < 60 → e.statusClass = "status-not-approved" ∧ st = "Not Approved") := by
  unfold csrBlock at hb
  rw [hp] at hb
  simp only [Option.some.injEq, Prod.mk.injEq] at hb
  obtain ⟨he, hst⟩ := hb
  subst he
  subst hst
  refine ⟨?_, ?_, ?_⟩
  · intro h80
    constructor
    · show (csrClassify (digitsToNat ds)).1 = "status-approved"
      unfold csrClassify
      rw [if_pos h80]
    · show (csrClassify (digitsToNat ds)).2 = "Approved"
      unfold csrClassify
      rw [if_pos h80]
  · intro h60 h80
    have hn80 : ¬ 80 ≤ digitsToNat ds := by omega
    constructor
    · show (csrClassify (digitsToNat ds)).1 = "status-pending"
      unfold csrClassify
      rw [if_neg hn80, if_pos h60]
    · show (csrClassify (digitsToNat ds)).2 = "Pending"
      unfold csrClassify
      rw [if_neg hn80, if_pos h60]
  · intro h60
    have hn80 : ¬ 80 ≤ digitsToNat ds := by omega
    have hn60 : ¬ 60 ≤ digitsToNat ds := by omega
    constructor
    · show (csrClassify (digitsToNat ds)).1 = "status-not-approved"
      unfold csrClassify
      rw [if_neg hn80, if_neg hn60]
    · show (csrClassify (digitsToNat ds)).2 = "Not Approved"
      unfold csrClassify
      rw [if_neg hn80, if_neg hn60]

/-- C4 witness: cells with 85%, 75% and 40% classify as Approved, Pending
and Not Approved respectively, in both recorded places. -/
theorem c4_csr_thresholds_witness :
    csrBlock "85% Evaluated: 2024-05-01".data
      = some (⟨"CSR", "85%", "status-approved", "Eval: 2024-05-01"⟩, "Approved")
    ∧ csrBlock "75% Evaluated: 2024-05-01".data
      = some (⟨"CSR", "75%", "status-pending", "Eval: 2024-05-01"⟩, "Pending")
    ∧ csrBlock "40% Evaluated: 2024-05-01".data
      = some (⟨"CSR", "40%", "status-not-approved", "Eval: 2024-05-01"⟩, "Not Approved")
    ∧ (⟨"CSR", "85%", "status-approved", "Eval: 2024-05-01"⟩ : AuditEntry).statusClass
        = "status-approved"
    ∧ ("Approved" : String) = "Approved" := by
  have h := (c4_csr_thresholds "85% Evaluated: 2024-05-01".data "85".data
    ⟨"CSR", "85%", "status-approved", "Eval: 2024-05-01"⟩ "Approved"
    (by decide) (by decide)).1 (by decide)
  exact ⟨by decide, by decide, by decide, h.1, h.2⟩

/-! ### Padding lemma and C6 -/

lemma padAudits_closed_form :
    ∀ (k : ℕ) (l : List AuditEntry), 6 - l.length = k
      → padAudits l = l ++ List.replicate k naAudit := by
  intro k
  induction k with
  | zero =>
    intro l hl
    rw [padAudits]
    have hge : ¬ l.length < 6 := by omega
    simp [hge]
  | succ k ih =>
    intro l hl
    rw [padAudits]
    have hlt : l.length < 6 := by omega
    rw [if_pos hlt, ih (l ++ [naAudit]) (by simp; omega)]
    simp [List.replicate_succ]

/-- C6: whenever fewer than six audit entries were extracted, the padding
loop extends the list to exactly six entries, keeping every real entry
first in extraction order and filling the tail with the `N/A` placeholder
entry (status class `status-na`). -/
theorem c6_audits_padded_to_six (l : List AuditEntry) (h : l.length < 6) :
    (padAudits l).length = 6
    ∧ (padAudits l).take l.length = l
    ∧ ∀ i, l.length ≤ i → i < 6 → (padAudits l)[i]? = some naAudit := by
  rw [padAudits_closed_form (6 - l.length) l rfl]
  refine ⟨by simp; omega, by simp, ?_⟩
  intro i h1 h2
  rw [List.getElem?_append_right (by omega)]
  rw [List.getElem?_replicate]
  rw [if_pos (by omega)]

/-- Two real extracted entries used to exhibit the padding behaviour. -/
def padDemo : List AuditEntry :=
  [⟨"SEM", "Approved 74%", "status-approved", "2017-03-17"⟩,
   ⟨"CSR", "85%", "status-approved", "Eval: 2024-05-01"⟩]

/-- C6 witness: padding a two-entry list. -/
theorem c6_audits_padded_to_six_witness :
    padDemo.length < 6
    ∧ (padAudits padDemo).length = 6
    ∧ (padAudits padDemo).take padDemo.length = padDemo
    ∧ (padAudits padDemo)[2]? = some naAudit := by
  have h := c6_audits_padded_to_six padDemo (by decide)
  exact ⟨by decide, h.1, h.2.1, h.2.2 2 (by decide) (by decide)⟩

/-- C8: page-outcome classification checks login markers first (against
lowercased title or body), then access-denied markers, then not-found
markers, then falls through to success; the first matching class wins and
each error class returns no result together with its message — in
particular a page containing both a login marker and an access-denied
marker is classified login-required. -/
theorem c8_classification_precedence (sid : String) (title src : List Char) :
    ((loginMarkers.any (fun tm =>
        containsSub tm (strLower title) || containsSub tm (strLower src))) = true
      → scrape_volvo_scorecard_classify sid title src
        = (none, some ("Login page detected for supplier " ++ sid
            ++ " - authentication required")))
    ∧ ((loginMarkers.any (fun tm =>
        containsSub tm (strLower title) || containsSub tm (strLower src))) = false
      → (deniedMarkers.any (fun tm => containsSub tm (strLower src))) = true
      → scrape_volvo_scorecard_classify sid title src
        = (none, some ("Access denied for supplier " ++ sid)))
    ∧ ((loginMarkers.any (fun tm =>
        containsSub tm (strLower title) || containsSub tm (strLower src))) = false
      → (deniedMarkers.any (fun tm => containsSub tm (strLower src))) = false
      → (containsSub "supplier not found".data (strLower src)
          || containsSub "no supplier".data (strLower src)) = true
      → scrape_volvo_scorecard_classify sid title src
        = (none, some ("Supplier " ++ sid ++ " not found")))
    ∧ ((loginMarkers.any (fun tm =>
        containsSub tm (strLower title) || containsSub tm (strLower src))) = false
      → (deniedMarkers.any (fun tm => containsSub tm (strLower src))) = false
      → (containsSub "supplier not found".data (strLower src)
          || containsSub "no supplier".data (strLower src)) = false
      → scrape_volvo_scorecard_classify sid title src = (some src, none)) := by
  refine ⟨?_, ?_, ?_, ?_⟩
  · intro h1
    simp [scrape_volvo_scorecard_classify, h1]
  · intro h1 h2
    simp [scrape_volvo_scorecard_classify, h1, h2]
  · intro h1 h2 h3
    simp [scrape_volvo_scorecard_classify, h1, h2, h3]
  · intro h1 h2 h3
    simp [scrape_volvo_scorecard_classify, h1, h2, h3]

/-- A page body containing both a login marker and an access-denied
marker. -/
def pageDemo : List Char := "Please LOGIN to continue. Access Denied for this resource.".data

/-- C8 witness: the overlapping page is classified login-required, with
the login error message and no result. -/
theorem c8_classification_precedence_witness :
    (loginMarkers.any (fun tm =>
      containsSub tm (strLower "".data) || containsSub tm (strLower pageDemo))) = true
    ∧ (deniedMarkers.any (fun tm => containsSub tm (strLower pageDemo))) = true
    ∧ scrape_volvo_scorecard_classify "123" "".data pageDemo
      = (none, some ("Login page detected for supplier " ++ "123"
          ++ " - authentication required")) := by
  refine ⟨by decide, by decide, ?_⟩
  exact (c8_classification_precedence "123" "".data pageDemo).1 (by decide)

/-- C10: loading supplier IDs returns the union of all people's
`parma_codes` lists with each code exactly once, sorted ascending,
whatever duplication or ordering the input has; an empty union yields
`None` rather than an empty list. -/
theorem c10_toml_ids_sorted (people : List (List ℕ)) :
    (∀ a, a ∈ uniqueCodes people ↔ a ∈ people.flatten)
    ∧ (uniqueCodes people).Nodup
    ∧ (uniqueCodes people).Sorted (· < ·)
    ∧ (people.flatten = [] → load_supplier_ids_from_toml people = none)
    ∧ (people.flatten ≠ []
        → load_supplier_ids_from_toml people = some (uniqueCodes people)) := by
  have hperm : List.Perm (uniqueCodes people) people.flatten.dedup :=
    List.perm_insertionSort _ _
  have hnd : (uniqueCodes people).Nodup := hperm.nodup_iff.mpr (List.nodup_dedup _)
  have hsortle : (uniqueCodes people).Sorted (· ≤ ·) := List.sorted_insertionSort _ _
  refine ⟨?_, hnd, hsortle.lt_of_le hnd, ?_, ?_⟩
  · intro a
    rw [hperm.mem_iff, List.mem_dedup]
  · intro h
    have hu : uniqueCodes people = [] := by
      unfold uniqueCodes
      rw [h]
      rfl
    simp [load_supplier_ids_from_toml, hu]
  · intro h
    have hne : uniqueCodes people ≠ [] := by
      intro hcon
      rw [hcon] at hperm
      exact h ((List.dedup_eq_nil _).mp hperm.nil_eq.symm)
    simp [load_supplier_ids_from_toml, List.isEmpty_iff, hne]

/-- C10 witness: duplicated, unsorted input codes. -/
theorem c10_toml_ids_sorted_witness :
    load_supplier_ids_from_toml [[103, 101], [102, 101]] = some [101, 102, 103]
    ∧ (uniqueCodes [[103, 101], [102, 101]]).Sorted (· < ·)
    ∧ ([[103, 101], [102, 101]] : List (List ℕ)).flatten ≠ [] := by
  have h := c10_toml_ids_sorted [[103, 101], [102, 101]]
  have h2 := h.2.2.2.2 (by decide)
  refine ⟨?_, h.2.2.1, by decide⟩
  rw [h2]
  decide
